import Mathlib

/-!
Verification of the atomic wait / notify engine (`atomic_wait.cpp` and
`xatomic_wait.h`).  Machine integers are modelled as `Nat` with explicit
`% 2 ^ 64` where unsigned 64-bit overflow matters; OS calls whose outcome
depends on the environment (SleepConditionVariableSRW, WaitOnAddress) take
their outcome as an explicit oracle argument; `abort()` is modelled as the
`none` result.
-/

namespace AtomicWait

/-- Modulus of `unsigned long long` arithmetic. -/
def u64 : Nat := 2 ^ 64

/-- `_Atomic_wait_no_timeout` / `_Atomic_wait_context_t::_No_deadline` =
`0xFFFF'FFFF'FFFF'FFFF`. -/
def noTimeoutSentinel : Nat := 0xFFFFFFFFFFFFFFFF

/-- Windows `INFINITE` timeout value (`0xFFFFFFFF`). -/
def INFINITE : Nat := 0xFFFFFFFF

/-- `_Ten_days` from `_Get_remaining_wait_milliseconds`: 864'000'000 ms. -/
def tenDays : Nat := 864000000

/-- Windows `ERROR_TIMEOUT` (1460). -/
def ERROR_TIMEOUT : Nat := 1460

/-- `_Atomic_wait_phase_wait_locked = 0x1` from the `_Atomic_spin_phase` enum. -/
def phaseWaitLocked : Nat := 0x1

/-- `_Atomic_wait_phase_wait_none = 0x2` from the `_Atomic_spin_phase` enum. -/
def phaseWaitNone : Nat := 0x2

/-- `_Atomic_wait_phase_wait_counter = 0x4` from the `_Atomic_spin_phase` enum. -/
def phaseWaitCounter : Nat := 0x4

/-- `_Wait_table_size_power = 8`. -/
def waitTableSizePower : Nat := 8

/-- `_Wait_table_index_mask = (1 << 8) - 1 = 255`. -/
def waitTableIndexMask : Nat := (1 <<< waitTableSizePower) - 1

/-- The index computation of `_Atomic_wait_table_entry`: the storage pointer
(a 64-bit `uintptr_t`, modelled as a `Nat`) is mixed by two xor-shifts and
masked to the table size. -/
def atomicWaitTableIndex (storage : Nat) : Nat :=
  let i1 := storage ^^^ (storage >>> (waitTableSizePower * 2))
  let i2 := i1 ^^^ (i1 >>> waitTableSizePower)
  i2 &&& waitTableIndexMask

/-- `_Atomic_wait_context_t`: wait phase (with packed spin count), absolute
deadline in `GetTickCount64` milliseconds, and the counter snapshot used by
indirect waits. -/
structure WaitContext where
  waitPhaseAndSpinCount : Nat
  deadline : Nat
  counter : Nat
deriving DecidableEq

/-- `_Get_remaining_wait_milliseconds`: `INFINITE` for the no-deadline
sentinel, `0` once the deadline has passed, otherwise the difference clamped
to ten days.  `now` is the value `GetTickCount64()` returns during the call. -/
def getRemainingWaitMilliseconds (deadline now : Nat) : Nat :=
  if deadline = noTimeoutSentinel then
    INFINITE
  else if now ≥ deadline then
    0
  else
    let remaining := deadline - now
    if remaining > tenDays then tenDays else remaining

/-- `__std_atomic_wait_get_deadline`: the no-timeout sentinel is stored
as-is, any other timeout is added (with 64-bit wraparound) to the current
tick count. -/
def atomicWaitGetDeadline (timeout now : Nat) : Nat :=
  if timeout = noTimeoutSentinel then
    noTimeoutSentinel
  else
    (now + timeout) % u64

/-- `__std_atomic_api_level`. -/
inductive ApiLevel
| notSet
| detecting
| hasSrwlock
| hasWaitOnAddress
deriving DecidableEq

/-- Numeric value of each `__std_atomic_api_level` enumerator, used by the
ordered comparisons in the source. -/
def ApiLevel.code : ApiLevel → Nat
| .notSet => 0
| .detecting => 1
| .hasSrwlock => 2
| .hasWaitOnAddress => 3

/-- `_Have_wait_functions`: the detected level is at least
`__has_wait_on_address`. -/
def haveWaitFunctions (lv : ApiLevel) : Bool :=
  decide (ApiLevel.hasWaitOnAddress.code ≤ lv.code)

/-- An address an OS-level wait or wake acts on: either the user storage
itself, or the internal `_Counter` of a wait-table entry. -/
inductive WaitAddr
| storage (p : Nat)
| entryCounter (idx : Nat)
deriving DecidableEq

/-- Observable OS synchronization actions, recorded in program order. -/
inductive SyncEvent
| acquireSrwLockExclusive (idx : Nat)
| releaseSrwLockExclusive (idx : Nat)
| sleepConditionVariableSrw (idx : Nat) (ms : Nat)
| wakeAllConditionVariable (idx : Nat)
| waitOnAddress (a : WaitAddr) (ms : Nat)
| wakeByAddressSingle (a : WaitAddr)
| wakeByAddressAll (a : WaitAddr)
deriving DecidableEq

/-- Outcome of a fallible blocking OS call (`SleepConditionVariableSRW` or
`WaitOnAddress`), supplied as an oracle: success, or failure with the
`GetLastError()` value the thread then observes. -/
inductive OsWaitResult
| ok
| failed (lastError : Nat)
deriving DecidableEq

/-- `_Assume_timeout`: under `_DEBUG` it aborts when `GetLastError()` is not
`ERROR_TIMEOUT`; in release builds it does nothing.  Returns `true` when the
call aborts the process. -/
def assumeTimeoutAborts (debug : Bool) (lastError : Nat) : Bool :=
  debug && !(lastError = ERROR_TIMEOUT)

/-- Result of one fallback wait call: `ret = none` models `abort()`,
`ret = some b` the C++ return value; `phase` and `lockHeld` are the context
phase and whether this caller holds the entry's SRWLOCK on exit. -/
structure FallbackOutcome where
  ret : Option Bool
  phase : Nat
  lockHeld : Bool
  events : List SyncEvent
deriving DecidableEq

/-- `_Atomic_wait_fallback`.  `phase` is the context's
`_Wait_phase_and_spin_count` on entry, `lockHeld` whether the caller already
holds the entry's lock (it does exactly in phase `wait_locked`), and
`sleepResult` the oracle outcome of `SleepConditionVariableSRW` if it is
reached.  Note that `SleepConditionVariableSRW` has reacquired the lock by
the time it returns, in both its success and failure cases. -/
def atomicWaitFallback (debug : Bool) (storage phase deadline now : Nat)
    (lockHeld : Bool) (sleepResult : OsWaitResult) : FallbackOutcome :=
  let rem := getRemainingWaitMilliseconds deadline now
  if rem = 0 then
    { ret := some false, phase := phase, lockHeld := lockHeld, events := [] }
  else if phase = phaseWaitNone then
    let e := atomicWaitTableIndex storage
    { ret := some true, phase := phaseWaitLocked, lockHeld := true,
      events := [.acquireSrwLockExclusive e] }
  else if phase = phaseWaitLocked then
    let e := atomicWaitTableIndex storage
    match sleepResult with
    | .ok =>
      { ret := some true, phase := phaseWaitLocked, lockHeld := lockHeld,
        events := [.sleepConditionVariableSrw e rem] }
    | .failed err =>
      if assumeTimeoutAborts debug err then
        { ret := none, phase := phase, lockHeld := lockHeld,
          events := [.sleepConditionVariableSrw e rem] }
      else
        { ret := some false, phase := phaseWaitNone, lockHeld := false,
          events := [.sleepConditionVariableSrw e rem,
                     .releaseSrwLockExclusive e] }
  else
    { ret := none, phase := phase, lockHeld := lockHeld, events := [] }

/-- `_Atomic_unwait_fallback`: releases the entry lock exactly when the
context is in phase `wait_locked`, and resets the phase. -/
def atomicUnwaitFallback (storage phase : Nat) (lockHeld : Bool) :
    Nat × Bool × List SyncEvent :=
  if phase = phaseWaitLocked then
    (phaseWaitNone, false,
      [SyncEvent.releaseSrwLockExclusive (atomicWaitTableIndex storage)])
  else
    (phase, lockHeld, [])

/-- `_Atomic_notify_fallback`: acquire then release the entry's lock, then
broadcast on its condition variable. -/
def atomicNotifyFallback (storage : Nat) : List SyncEvent :=
  let e := atomicWaitTableIndex storage
  [.acquireSrwLockExclusive e, .releaseSrwLockExclusive e,
   .wakeAllConditionVariable e]

/-- `__std_atomic_wait_direct`.  `statAvail` is the
`_ATOMIC_WAIT_ON_ADDRESS_STATICALLY_AVAILABLE` build configuration;
`osResult` is the oracle outcome of `__crtWaitOnAddress` on the native
path, `sleepResult` the one the fallback path would use. -/
def waitDirect (statAvail debug : Bool) (lv : ApiLevel)
    (storage phase deadline now : Nat) (lockHeld : Bool)
    (osResult sleepResult : OsWaitResult) : FallbackOutcome :=
  if !statAvail && !haveWaitFunctions lv then
    atomicWaitFallback debug storage phase deadline now lockHeld sleepResult
  else
    let rem := getRemainingWaitMilliseconds deadline now
    match osResult with
    | .ok =>
      { ret := some true, phase := phase, lockHeld := lockHeld,
        events := [.waitOnAddress (.storage storage) rem] }
    | .failed err =>
      if assumeTimeoutAborts debug err then
        { ret := none, phase := phase, lockHeld := lockHeld,
          events := [.waitOnAddress (.storage storage) rem] }
      else
        { ret := some false, phase := phase, lockHeld := lockHeld,
          events := [.waitOnAddress (.storage storage) rem] }

/-- `__std_atomic_notify_one_direct`. -/
def notifyOneDirect (statAvail : Bool) (lv : ApiLevel) (storage : Nat) :
    List SyncEvent :=
  if !statAvail && !haveWaitFunctions lv then
    atomicNotifyFallback storage
  else
    [.wakeByAddressSingle (.storage storage)]

/-- `__std_atomic_notify_all_direct`. -/
def notifyAllDirect (statAvail : Bool) (lv : ApiLevel) (storage : Nat) :
    List SyncEvent :=
  if !statAvail && !haveWaitFunctions lv then
    atomicNotifyFallback storage
  else
    [.wakeByAddressAll (.storage storage)]

/-- Result of one indirect wait call: C++ return value (`none` = abort),
the updated context, lock state, and the OS actions performed. -/
structure WaitIndirectOutcome where
  ret : Option Bool
  ctx : WaitContext
  lockHeld : Bool
  events : List SyncEvent
deriving DecidableEq

/-- `__std_atomic_wait_indirect`.  `table` maps a wait-table index to the
current value of that entry's `_Counter`. -/
def waitIndirect (statAvail debug : Bool) (lv : ApiLevel) (table : Nat → Nat)
    (storage : Nat) (ctx : WaitContext) (now : Nat) (lockHeld : Bool)
    (osResult sleepResult : OsWaitResult) : WaitIndirectOutcome :=
  if !statAvail && !haveWaitFunctions lv then
    let fb := atomicWaitFallback debug storage ctx.waitPhaseAndSpinCount
      ctx.deadline now lockHeld sleepResult
    { ret := fb.ret, ctx := { ctx with waitPhaseAndSpinCount := fb.phase },
      lockHeld := fb.lockHeld, events := fb.events }
  else
    let e := atomicWaitTableIndex storage
    if ctx.waitPhaseAndSpinCount = phaseWaitNone then
      { ret := some true,
        ctx := { ctx with counter := table e,
                          waitPhaseAndSpinCount := phaseWaitCounter },
        lockHeld := lockHeld, events := [] }
    else if ctx.waitPhaseAndSpinCount = phaseWaitCounter then
      let rem := getRemainingWaitMilliseconds ctx.deadline now
      match osResult with
      | .ok =>
        { ret := some true,
          ctx := { ctx with waitPhaseAndSpinCount := phaseWaitNone },
          lockHeld := lockHeld,
          events := [.waitOnAddress (.entryCounter e) rem] }
      | .failed err =>
        if assumeTimeoutAborts debug err then
          { ret := none, ctx := ctx, lockHeld := lockHeld,
            events := [.waitOnAddress (.entryCounter e) rem] }
        else
          { ret := some false, ctx := ctx, lockHeld := lockHeld,
            events := [.waitOnAddress (.entryCounter e) rem] }
    else
      { ret := none, ctx := ctx, lockHeld := lockHeld, events := [] }

/-- Result of an indirect notify: updated wait table and OS actions. -/
structure NotifyIndirectOutcome where
  table : Nat → Nat
  events : List SyncEvent

/-- `__std_atomic_notify_all_indirect`: on the fallback level it delegates
to `_Atomic_notify_fallback` (and returns, leaving the counter untouched);
otherwise it does `fetch_add(1)` on the entry's counter and wakes all
waiters on the counter's address. -/
def notifyAllIndirect (statAvail : Bool) (lv : ApiLevel) (table : Nat → Nat)
    (storage : Nat) : NotifyIndirectOutcome :=
  if !statAvail && !haveWaitFunctions lv then
    { table := table, events := atomicNotifyFallback storage }
  else
    let e := atomicWaitTableIndex storage
    { table := fun i => if i = e then (table i + 1) % u64 else table i,
      events := [.wakeByAddressAll (.entryCounter e)] }

/-- `__std_atomic_notify_one_indirect`: an unconditional call to
`__std_atomic_notify_all_indirect`. -/
def notifyOneIndirect (statAvail : Bool) (lv : ApiLevel) (table : Nat → Nat)
    (storage : Nat) : NotifyIndirectOutcome :=
  notifyAllIndirect statAvail lv table storage

/-- `n` successive calls to `__std_atomic_notify_all_indirect` on the same
address, threading the wait table through. -/
def notifyAllIndirectIter (statAvail : Bool) (lv : ApiLevel) (storage : Nat) :
    Nat → (Nat → Nat) → (Nat → Nat)
| 0, table => table
| n + 1, table =>
  notifyAllIndirectIter statAvail lv storage n
    (notifyAllIndirect statAvail lv table storage).table

/-!
Interleaving model of the feature level detector (`_Get_wait_functions` and
`_Force_wait_functions_srwlock_only`).  Each thread runs one call; the
shared state is the `_Api_level` atomic.  `probeFound` is the fixed,
process-wide outcome of the `GetModuleHandleW`/`GetProcAddress` probe (the
same symbols resolve the same way every time within one process), `probes`
counts how many times that probe sequence has been executed.
-/

namespace Detect

/-- Which routine the thread is running. -/
inductive Role
| getFns
| forceSrw
deriving DecidableEq

/-- Program counter within `_Get_wait_functions` /
`_Force_wait_functions_srwlock_only`: about to do the initial load; inside
the `compare_exchange_weak` loop; about to run the OS symbol probe; about to
store the terminal level; returned. -/
inductive TPc
| start
| casLoop
| probe
| publish
| finished
deriving DecidableEq

/-- One thread: its role, program counter, and its `_Local` variable. -/
structure Thr where
  role : Role
  pc : TPc
  loc : AtomicWait.ApiLevel
deriving DecidableEq

/-- Shared system state. -/
structure Sys where
  level : AtomicWait.ApiLevel
  probeFound : Bool
  thrs : List Thr
  probes : Nat
deriving DecidableEq

open AtomicWait in
/-- The terminal level `_Get_wait_functions` publishes after its probe:
`__has_wait_on_address` when all three symbols resolved, `__has_srwlock`
otherwise. -/
def terminalFor (pf : Bool) : ApiLevel :=
  if pf then .hasWaitOnAddress else .hasSrwlock

open AtomicWait in
/-- A level strictly above `__detecting`, i.e. one of the two terminal
values. -/
def isTerminal (lv : ApiLevel) : Bool :=
  decide (ApiLevel.detecting.code < lv.code)

open AtomicWait in
/-- The possible effects of one atomic step of thread `t` given the current
shared `level`: each element is (new thread state, new shared level, number
of OS probes executed by the step).  The `casLoop` case models
`compare_exchange_weak`: when the level equals the expected `_Local` the CAS
may succeed (store the desired value) or fail spuriously; when it differs
the CAS fails and updates `_Local`, and the loop body then returns if
`_Local > __detecting`. -/
def threadStep (lv : ApiLevel) (pf : Bool) (t : Thr) :
    List (Thr × ApiLevel × Nat) :=
  match t.pc with
  | .start =>
    -- auto _Local = _Api_level.load(acquire); if (_Local <= __detecting) ...
    if lv.code ≤ ApiLevel.detecting.code then
      [({ t with pc := .casLoop, loc := lv }, lv, 0)]
    else
      [({ t with pc := .finished, loc := lv }, lv, 0)]
  | .casLoop =>
    let desired : ApiLevel :=
      match t.role with
      | .getFns => .detecting
      | .forceSrw => .hasSrwlock
    let succPc : TPc :=
      match t.role with
      | .getFns => .probe
      | .forceSrw => .finished
    if lv = t.loc then
      -- comparand matches: weak CAS either succeeds or fails spuriously
      -- (on spurious failure _Local is reloaded to the same value and the
      -- loop guard keeps the thread in the loop)
      [({ t with pc := succPc }, desired, 0), (t, lv, 0)]
    else
      -- comparand differs: CAS fails, _Local := level;
      -- if (_Local > __detecting) return; else retry
      if ApiLevel.detecting.code < lv.code then
        [({ t with pc := .finished, loc := lv }, lv, 0)]
      else
        [({ t with loc := lv }, lv, 0)]
  | .probe =>
    match t.role with
    | .getFns => [({ t with pc := .publish }, lv, 1)]
    | .forceSrw => []
  | .publish =>
    match t.role with
    | .getFns => [({ t with pc := .finished }, terminalFor pf, 0)]
    | .forceSrw => []
  | .finished => []

/-- One interleaving step: thread `i` performs its `k`-th possible effect. -/
def doStep (s : Sys) (i k : Nat) : Option Sys :=
  match s.thrs[i]? with
  | none => none
  | some t =>
    match (threadStep s.level s.probeFound t)[k]? with
    | none => none
    | some x =>
      some { s with level := x.2.1, thrs := s.thrs.set i x.1,
                    probes := s.probes + x.2.2 }

/-- The step relation of the detector model. -/
def Step (s s2 : Sys) : Prop :=
  ∃ i k, doStep s i k = some s2

/-- Reachability in the detector model. -/
def Reaches : Sys → Sys → Prop :=
  Relation.ReflTransGen Step

/-- Run a concrete schedule: a list of (thread index, choice index). -/
def runSched : Sys → List (Nat × Nat) → Option Sys
| s, [] => some s
| s, (i, k) :: rest =>
  match doStep s i k with
  | none => none
  | some s2 => runSched s2 rest

/-- Initial state: `n` threads all about to call `_Get_wait_functions` for
the first time, level not yet set. -/
def initGet (n : Nat) (pf : Bool) : Sys :=
  { level := .notSet, probeFound := pf,
    thrs := List.replicate n { role := .getFns, pc := .start, loc := .notSet },
    probes := 0 }

/-- Initial state for the force/detect race: thread 0 calls
`_Get_wait_functions`, thread 1 calls `_Force_wait_functions_srwlock_only`,
on a machine where the native symbols resolve. -/
def initGetForce : Sys :=
  { level := .notSet, probeFound := true,
    thrs := [{ role := .getFns, pc := .start, loc := .notSet },
             { role := .forceSrw, pc := .start, loc := .notSet }],
    probes := 0 }

end Detect

/-!
Interleaving model of the no-missed-wakeup protocol (claim C1), for the
native (`WaitOnAddress`) code path with the no-timeout deadline sentinel.

The waiter runs the mandated caller loop around `__std_atomic_wait_indirect`
(check value / snapshot counter / re-check / block on counter), starting
just past the snapshot step (phase `wait_counter`, context counter equal to
the entry counter).  The notifier then mutates the watched value, calls
`__std_atomic_notify_all_indirect` (fetch_add on the entry counter, then
`WakeByAddressAll` on its address).  `counterBumped` abstracts the entry
counter relative to the waiter's snapshot: `false` while they are equal,
`true` once the notifier's `fetch_add(1)` has made them differ (one
increment of a 64-bit counter never wraps back to the snapshot).
`WaitOnAddress` semantics: atomically compare the watched cell with the
comparand snapshot; return immediately when they differ, otherwise sleep
until a wake on that address arrives (no timeout, since the remaining
milliseconds are `INFINITE`).
-/

namespace MissedWakeup

/-- Waiter position in the caller loop around `__std_atomic_wait_indirect`:
top-of-loop value check in phase `wait_none`; the snapshot call (phase
`wait_none` branch of the switch); the re-check after the snapshot call
returned true; the blocking call (phase `wait_counter` branch); asleep
inside `WaitOnAddress`; returned with the final result (`true` = Woken,
`false` = TimedOut). -/
inductive WPc
| checkValue
| snapshot
| recheck
| enterWait
| blocked
| finished (woken : Bool)
deriving DecidableEq

/-- Notifier position: about to mutate the watched value; about to
`fetch_add(1)` the entry counter; about to `WakeByAddressAll`; done. -/
inductive NPc
| mutate
| bumpCounter
| wakeAll
| finished
deriving DecidableEq

/-- Joint state of the indirect-wait race. -/
structure ISys where
  valueChanged : Bool
  counterBumped : Bool
  waiter : WPc
  notifier : NPc
deriving DecidableEq

/-- The waiter's enabled steps (empty while asleep or finished). -/
def waiterSteps (s : ISys) : List ISys :=
  match s.waiter with
  | .checkValue =>
    -- caller loop: if the watched value changed, the wait is over (Woken)
    [{ s with waiter := if s.valueChanged then .finished true else .snapshot }]
  | .snapshot =>
    -- wait_indirect, phase wait_none: context counter := entry counter
    -- (so the two are equal again), phase := wait_counter, return true
    [{ s with counterBumped := false, waiter := .recheck }]
  | .recheck =>
    -- caller loop re-checks the real value before blocking
    [{ s with waiter := if s.valueChanged then .finished true else .enterWait }]
  | .enterWait =>
    -- wait_indirect, phase wait_counter: WaitOnAddress(&counter, &snapshot):
    -- returns at once when they differ (phase := wait_none, return true,
    -- caller loops to the value check); otherwise the thread sleeps
    [{ s with waiter := if s.counterBumped then .checkValue else .blocked }]
  | .blocked => []
  | .finished _ => []

/-- The notifier's enabled steps; its wake transitions a sleeping waiter
back to the caller loop (`WaitOnAddress` returned, `wait_indirect` resets
the phase and returns true). -/
def notifierSteps (s : ISys) : List ISys :=
  match s.notifier with
  | .mutate => [{ s with valueChanged := true, notifier := .bumpCounter }]
  | .bumpCounter => [{ s with counterBumped := true, notifier := .wakeAll }]
  | .wakeAll =>
    [{ s with notifier := .finished,
              waiter := if s.waiter = .blocked then .checkValue else s.waiter }]
  | .finished => []

/-- All enabled interleaving steps. -/
def inext (s : ISys) : List ISys :=
  waiterSteps s ++ notifierSteps s

/-- `true` iff every maximal run from `s` ends, within `fuel` steps, in a
state where the waiter returned Woken and the notifier completed. -/
def allRunsWoken : Nat → ISys → Bool
| 0, _ => false
| fuel + 1, s =>
  match inext s with
  | [] => s.waiter = WPc.finished true && s.notifier = NPc.finished
  | l => l.all fun s2 => allRunsWoken fuel s2

/-- Initial state of the indirect race: the waiter has passed the snapshot
step (entry counter equals its context counter), the watched value is still
unchanged, and the notifier is about to mutate it. -/
def initIndirect : ISys :=
  { valueChanged := false, counterBumped := false,
    waiter := .recheck, notifier := .mutate }

/-- Waiter position for the direct-wait race: the caller loop around
`__std_atomic_wait_direct` (value check, then `WaitOnAddress` on the value
itself with the caller's comparand). -/
inductive DWPc
| checkValue
| enterWait
| blocked
| finished (woken : Bool)
deriving DecidableEq

/-- Notifier position for the direct race: mutate the value, then
`__std_atomic_notify_all_direct` (`WakeByAddressAll` on the value). -/
inductive DNPc
| mutate
| wakeAll
| finished
deriving DecidableEq

/-- Joint state of the direct-wait race; `valueChanged` records whether the
watched value still equals the waiter's comparand. -/
structure DSys where
  valueChanged : Bool
  waiter : DWPc
  notifier : DNPc
deriving DecidableEq

/-- Waiter steps for the direct race. -/
def dWaiterSteps (s : DSys) : List DSys :=
  match s.waiter with
  | .checkValue =>
    [{ s with waiter := if s.valueChanged then .finished true else .enterWait }]
  | .enterWait =>
    -- WaitOnAddress(storage, comparand): immediate return when the value
    -- already differs, else sleep
    [{ s with waiter := if s.valueChanged then .checkValue else .blocked }]
  | .blocked => []
  | .finished _ => []

/-- Notifier steps for the direct race. -/
def dNotifierSteps (s : DSys) : List DSys :=
  match s.notifier with
  | .mutate => [{ s with valueChanged := true, notifier := .wakeAll }]
  | .wakeAll =>
    [{ s with notifier := .finished,
              waiter := if s.waiter = .blocked then .checkValue else s.waiter }]
  | .finished => []

/-- All enabled interleaving steps of the direct race. -/
def dnext (s : DSys) : List DSys :=
  dWaiterSteps s ++ dNotifierSteps s

/-- `true` iff every maximal run ends, within `fuel` steps, with the waiter
Woken and the notifier done. -/
def allRunsWokenDirect : Nat → DSys → Bool
| 0, _ => false
| fuel + 1, s =>
  match dnext s with
  | [] => s.waiter = DWPc.finished true && s.notifier = DNPc.finished
  | l => l.all fun s2 => allRunsWokenDirect fuel s2

/-- Initial state of the direct race: the waiter has checked the value
against its comparand (they were equal) and is entering the wait; the
notifier is about to mutate the value. -/
def initDirect : DSys :=
  { valueChanged := false, waiter := .enterWait, notifier := .mutate }

end MissedWakeup

/-! Theorems. -/

lemma list_mem_of_getElem_opt {α : Type} (l : List α) (n : Nat) (a : α)
    (h : l[n]? = some a) : a ∈ l := by
  obtain ⟨hlt, he⟩ := List.getElem?_eq_some.mp h
  exact he ▸ List.getElem_mem hlt

/-- Claim C1: no missed wakeup.  In every interleaving of the indirect-wait
race (waiter past the snapshot step of the check/snapshot/re-check-or-block
protocol, notifier subsequently mutating the value and calling
`__std_atomic_notify_all_indirect`) and of the analogous direct-wait race,
the waiter's wait call terminates with result Woken, never TimedOut. -/
theorem MissedWakeup.no_missed_wakeup :
    MissedWakeup.allRunsWoken 12 MissedWakeup.initIndirect = true ∧
    MissedWakeup.allRunsWokenDirect 10 MissedWakeup.initDirect = true := by
  decide

/-- Claim C2: on the native path, a call to `__std_atomic_wait_indirect` in
phase `wait_none` copies the hashed wait-table entry's counter into the
context's counter field, advances the phase to `wait_counter`, returns true,
and performs no OS blocking call. -/
theorem waitIndirect_first_call_is_pure_snapshot
    (statAvail debug : Bool) (lv : ApiLevel) (table : Nat → Nat)
    (storage : Nat) (ctx : WaitContext) (now : Nat) (lockHeld : Bool)
    (osResult sleepResult : OsWaitResult)
    (hnative : haveWaitFunctions lv = true)
    (hphase : ctx.waitPhaseAndSpinCount = phaseWaitNone) :
    waitIndirect statAvail debug lv table storage ctx now lockHeld osResult
        sleepResult =
      { ret := some true,
        ctx := { ctx with counter := table (atomicWaitTableIndex storage),
                          waitPhaseAndSpinCount := phaseWaitCounter },
        lockHeld := lockHeld, events := [] } := by
  simp [waitIndirect, hnative, hphase]

/-- Witness for C2 at concrete inputs. -/
theorem waitIndirect_first_call_is_pure_snapshot_witness :
    waitIndirect false false ApiLevel.hasWaitOnAddress (fun _ => 42) 7
        ⟨phaseWaitNone, noTimeoutSentinel, 0⟩ 0 false .ok .ok =
      ⟨some true, ⟨phaseWaitCounter, noTimeoutSentinel, 42⟩, false, []⟩ := by
  have h := waitIndirect_first_call_is_pure_snapshot false false
    ApiLevel.hasWaitOnAddress (fun _ => 42) 7
    ⟨phaseWaitNone, noTimeoutSentinel, 0⟩ 0 false .ok .ok (by decide) rfl
  simpa using h

/-- Claim C3, counterexample: at feature level `__has_srwlock`
(fallback-only), `__std_atomic_notify_all_indirect` leaves the entry's
version counter unchanged (it takes the `_Atomic_notify_fallback` early
return), so the counter is not incremented by one. -/
theorem notifyIndirect_fallback_counter_unchanged :
    (notifyAllIndirect false ApiLevel.hasSrwlock (fun _ => 0) 0).table
        (atomicWaitTableIndex 0) = 0 ∧
    ¬ (notifyAllIndirect false ApiLevel.hasSrwlock (fun _ => 0) 0).table
        (atomicWaitTableIndex 0) = (0 + 1) % u64 := by
  constructor
  · rfl
  · decide

lemma notifyAllIndirectIter_native_succ (statAvail : Bool) (lv : ApiLevel)
    (storage : Nat) (hnative : haveWaitFunctions lv = true) :
    ∀ (n : Nat) (table : Nat → Nat),
      notifyAllIndirectIter statAvail lv storage (n + 1) table
          (atomicWaitTableIndex storage)
        = (table (atomicWaitTableIndex storage) + (n + 1)) % u64 := by
  intro n
  induction n with
  | zero =>
    intro table
    simp [notifyAllIndirectIter, notifyAllIndirect, hnative]
  | succ m ih =>
    intro table
    have hstep : (notifyAllIndirect statAvail lv table storage).table
        (atomicWaitTableIndex storage)
        = (table (atomicWaitTableIndex storage) + 1) % u64 := by
      simp [notifyAllIndirect, hnative]
    calc notifyAllIndirectIter statAvail lv storage (m + 1 + 1) table
            (atomicWaitTableIndex storage)
        = notifyAllIndirectIter statAvail lv storage (m + 1)
            (notifyAllIndirect statAvail lv table storage).table
            (atomicWaitTableIndex storage) := rfl
      _ = ((notifyAllIndirect statAvail lv table storage).table
            (atomicWaitTableIndex storage) + (m + 1)) % u64 := ih _
      _ = ((table (atomicWaitTableIndex storage) + 1) % u64 + (m + 1)) % u64 := by
            rw [hstep]
      _ = (table (atomicWaitTableIndex storage) + (m + 1 + 1)) % u64 := by
            rw [Nat.mod_add_mod]; congr 1; omega

/-- Claim C3, amended: at a native feature level,
`__std_atomic_notify_all_indirect` increments the hashed entry's 64-bit
counter by exactly one (mod 2^64) and leaves all other entries unchanged,
and `n` successive notifies increase it by exactly `n` (mod 2^64); at the
fallback-only level, however, the counter is left unchanged and the
fallback broadcast path is used instead. -/
theorem notifyIndirect_counter_increment (statAvail : Bool) (lv : ApiLevel)
    (table : Nat → Nat) (storage j n : Nat)
    (htab : table (atomicWaitTableIndex storage) < u64) :
    (haveWaitFunctions lv = true →
      (notifyAllIndirect statAvail lv table storage).table
          (atomicWaitTableIndex storage)
        = (table (atomicWaitTableIndex storage) + 1) % u64
      ∧ (j ≠ atomicWaitTableIndex storage →
          (notifyAllIndirect statAvail lv table storage).table j = table j)
      ∧ notifyAllIndirectIter statAvail lv storage n table
          (atomicWaitTableIndex storage)
        = (table (atomicWaitTableIndex storage) + n) % u64)
    ∧ (statAvail = false → haveWaitFunctions lv = false →
        (notifyAllIndirect statAvail lv table storage).table = table) := by
  refine ⟨fun hnative => ⟨?_, ?_, ?_⟩, fun hs hf => ?_⟩
  · simp [notifyAllIndirect, hnative]
  · intro hj
    simp [notifyAllIndirect, hnative, hj]
  · cases n with
    | zero =>
      simp [notifyAllIndirectIter, Nat.mod_eq_of_lt htab]
    | succ m =>
      exact notifyAllIndirectIter_native_succ statAvail lv storage hnative m table
  · simp [notifyAllIndirect, hs, hf]

/-- Witness for the amended C3 at concrete inputs. -/
theorem notifyIndirect_counter_increment_witness :
    (notifyAllIndirect false ApiLevel.hasWaitOnAddress (fun _ => 5) 3).table
        (atomicWaitTableIndex 3) = 6 ∧
    notifyAllIndirectIter false ApiLevel.hasWaitOnAddress 3 2 (fun _ => 5)
        (atomicWaitTableIndex 3) = 7 := by
  have h := notifyIndirect_counter_increment false ApiLevel.hasWaitOnAddress
    (fun _ => 5) 3 0 2 (by decide)
  have h1 := (h.1 (by decide)).1
  have h2 := (h.1 (by decide)).2.2
  constructor
  · rw [h1]; decide
  · rw [h2]; decide

/-- Claim C6, counterexample: a fallback wait in phase `wait_locked` (the
caller holds the entry's mutex) whose deadline has already expired on entry
returns false through the early `remaining == 0` check while the mutex is
still held. -/
theorem fallback_timeout_can_hold_lock :
    (atomicWaitFallback false 0 phaseWaitLocked 5 10 true .ok).ret
        = some false ∧
    (atomicWaitFallback false 0 phaseWaitLocked 5 10 true .ok).lockHeld
        = true := by
  decide

/-- Claim C6, amended: when the fallback wait's `SleepConditionVariableSRW`
itself times out, the mutex is released (and the phase reset) before the
false return; a false return in phase `wait_none` leaves the mutex unheld;
but the early deadline-expired false return leaves the lock state unchanged
(so in phase `wait_locked` the mutex stays held), and the separate
`_Atomic_unwait_fallback` is what releases it. -/
theorem fallback_lock_discipline (debug : Bool) (storage deadline now : Nat)
    (lockHeld : Bool) (err : Nat) (sr : OsWaitResult) :
    (getRemainingWaitMilliseconds deadline now ≠ 0 → err = ERROR_TIMEOUT →
      (atomicWaitFallback debug storage phaseWaitLocked deadline now lockHeld
          (.failed err)).ret = some false
      ∧ (atomicWaitFallback debug storage phaseWaitLocked deadline now lockHeld
          (.failed err)).lockHeld = false
      ∧ (atomicWaitFallback debug storage phaseWaitLocked deadline now lockHeld
          (.failed err)).phase = phaseWaitNone)
    ∧ ((atomicWaitFallback debug storage phaseWaitNone deadline now false
          sr).ret = some false →
        (atomicWaitFallback debug storage phaseWaitNone deadline now false
          sr).lockHeld = false)
    ∧ (atomicUnwaitFallback storage phaseWaitLocked lockHeld).2.1 = false := by
  refine ⟨fun h1 h2 => ?_, fun h => ?_, ?_⟩
  · subst h2
    simp [atomicWaitFallback, h1, assumeTimeoutAborts, phaseWaitLocked,
      phaseWaitNone, ERROR_TIMEOUT]
  · by_cases hrem : getRemainingWaitMilliseconds deadline now = 0
    · simp [atomicWaitFallback, hrem]
    · simp [atomicWaitFallback, hrem] at h
  · simp [atomicUnwaitFallback]

/-- Witness for the amended C6 at concrete inputs. -/
theorem fallback_lock_discipline_witness :
    (atomicWaitFallback false 0 phaseWaitLocked noTimeoutSentinel 0 true
        (.failed ERROR_TIMEOUT)).lockHeld = false := by
  have h := fallback_lock_discipline false 0 noTimeoutSentinel 0 true
    ERROR_TIMEOUT OsWaitResult.ok
  exact (h.1 (by decide) rfl).2.1

/-- Claim C7, counterexample: in a release build (`_DEBUG` not defined), a
native `WaitOnAddress` failure whose error code is not `ERROR_TIMEOUT`
(here 5, `ERROR_ACCESS_DENIED`) is not fatal: `__std_atomic_wait_direct`
swallows it and returns false, exactly as for a timeout. -/
theorem waitDirect_release_swallows_failure :
    (waitDirect true false ApiLevel.hasWaitOnAddress 0 phaseWaitNone
        noTimeoutSentinel 0 false (.failed 5) .ok).ret = some false ∧
    ¬ (waitDirect true false ApiLevel.hasWaitOnAddress 0 phaseWaitNone
        noTimeoutSentinel 0 false (.failed 5) .ok).ret = none := by
  decide

/-- Claim C7, amended: on the native path of `__std_atomic_wait_direct`, a
platform timeout error is translated to the return value false in every
build; a platform failure other than timeout aborts the process only in
debug builds, while release builds treat every failure as a timeout and
return false. -/
theorem waitDirect_error_translation (statAvail debug : Bool)
    (lv : ApiLevel) (storage phase deadline now : Nat) (lockHeld : Bool)
    (err : Nat) (sr : OsWaitResult)
    (hnative : statAvail = true ∨ haveWaitFunctions lv = true) :
    (err = ERROR_TIMEOUT →
      (waitDirect statAvail debug lv storage phase deadline now lockHeld
          (.failed err) sr).ret = some false)
    ∧ (debug = true → err ≠ ERROR_TIMEOUT →
      (waitDirect statAvail debug lv storage phase deadline now lockHeld
          (.failed err) sr).ret = none)
    ∧ (debug = false →
      (waitDirect statAvail debug lv storage phase deadline now lockHeld
          (.failed err) sr).ret = some false) := by
  have hc : (!statAvail && !haveWaitFunctions lv) = false := by
    rcases hnative with h | h <;> simp [h]
  refine ⟨fun h1 => ?_, fun h1 h2 => ?_, fun h1 => ?_⟩
  · subst h1
    simp [waitDirect, hc, assumeTimeoutAborts]
  · subst h1
    simp [waitDirect, hc, assumeTimeoutAborts, h2]
  · subst h1
    simp [waitDirect, hc, assumeTimeoutAborts]

/-- Witness for the amended C7 at concrete inputs. -/
theorem waitDirect_error_translation_witness :
    (waitDirect false true ApiLevel.hasWaitOnAddress 9 phaseWaitNone
        noTimeoutSentinel 0 false (.failed ERROR_TIMEOUT) .ok).ret
      = some false := by
  have h := waitDirect_error_translation false true ApiLevel.hasWaitOnAddress
    9 phaseWaitNone noTimeoutSentinel 0 false ERROR_TIMEOUT OsWaitResult.ok
    (Or.inr (by decide))
  exact h.1 rfl

/-- Claim C8: deadline arithmetic.  `__std_atomic_wait_get_deadline` maps
the no-timeout sentinel to the no-deadline sentinel and any other timeout to
`GetTickCount64() + timeout` (64-bit arithmetic), and
`_Get_remaining_wait_milliseconds` returns `INFINITE` for the sentinel, 0
once the deadline has passed, and otherwise the difference clamped to the
ten-day (864'000'000 ms) maximum single-wait duration. -/
theorem deadline_arithmetic_spec (timeout now deadline : Nat) :
    (atomicWaitGetDeadline noTimeoutSentinel now = noTimeoutSentinel)
    ∧ (timeout ≠ noTimeoutSentinel →
        atomicWaitGetDeadline timeout now = (now + timeout) % u64)
    ∧ (getRemainingWaitMilliseconds noTimeoutSentinel now = INFINITE)
    ∧ (deadline ≠ noTimeoutSentinel → now ≥ deadline →
        getRemainingWaitMilliseconds deadline now = 0)
    ∧ (deadline ≠ noTimeoutSentinel → now < deadline →
        getRemainingWaitMilliseconds deadline now
          = min (deadline - now) tenDays) := by
  refine ⟨?_, ?_, ?_, ?_, ?_⟩
  · simp [atomicWaitGetDeadline]
  · intro h
    simp [atomicWaitGetDeadline, h]
  · simp [getRemainingWaitMilliseconds]
  · intro h1 h2
    simp [getRemainingWaitMilliseconds, h1, h2]
  · intro h1 h2
    have h4 : ¬ now ≥ deadline := by omega
    simp only [getRemainingWaitMilliseconds, if_neg h1, if_neg h4]
    split_ifs with h3 <;> omega

/-- Witness for C8 at concrete inputs. -/
theorem deadline_arithmetic_spec_witness :
    atomicWaitGetDeadline 5 10 = 15 ∧
    getRemainingWaitMilliseconds 20 10 = 10 ∧
    getRemainingWaitMilliseconds 20 30 = 0 := by
  have h := deadline_arithmetic_spec 5 10 20
  refine ⟨?_, ?_, ?_⟩
  · rw [h.2.1 (by decide)]; decide
  · rw [h.2.2.2.2 (by decide) (by decide)]; decide
  · exact (deadline_arithmetic_spec 5 30 20).2.2.2.1 (by decide) (by decide)

/-- Claim C9: on the fallback path, `__std_atomic_notify_one_direct` and
`__std_atomic_notify_all_direct` are identical for every address: both
acquire then release the hashed entry's mutex and then broadcast on its
condition variable. -/
theorem notifyDirect_fallback_one_equals_all (lv : ApiLevel) (storage : Nat)
    (hfb : haveWaitFunctions lv = false) :
    notifyOneDirect false lv storage = notifyAllDirect false lv storage
    ∧ notifyOneDirect false lv storage =
        [SyncEvent.acquireSrwLockExclusive (atomicWaitTableIndex storage),
         SyncEvent.releaseSrwLockExclusive (atomicWaitTableIndex storage),
         SyncEvent.wakeAllConditionVariable (atomicWaitTableIndex storage)] := by
  constructor
  · simp [notifyOneDirect, notifyAllDirect, hfb]
  · simp [notifyOneDirect, hfb, atomicNotifyFallback]

/-- Witness for C9 at concrete inputs. -/
theorem notifyDirect_fallback_one_equals_all_witness :
    notifyOneDirect false ApiLevel.hasSrwlock 7
      = notifyAllDirect false ApiLevel.hasSrwlock 7 :=
  (notifyDirect_fallback_one_equals_all ApiLevel.hasSrwlock 7 (by decide)).1

lemma Detect.threadStep_spec (lv : ApiLevel) (pf : Bool) (t : Detect.Thr)
    (x : Detect.Thr × ApiLevel × Nat)
    (h : x ∈ Detect.threadStep lv pf t) :
    x.1.role = t.role ∧
    (x.2.1 = lv ∨ x.2.1 = ApiLevel.detecting ∨
      (t.role = Detect.Role.getFns ∧ x.2.1 = Detect.terminalFor pf) ∨
      (t.role = Detect.Role.forceSrw ∧ x.2.1 = ApiLevel.hasSrwlock)) := by
  obtain ⟨role, pc, loc⟩ := t
  obtain ⟨t2, lv2, dp⟩ := x
  cases pc with
  | start =>
    simp only [Detect.threadStep] at h
    split at h <;>
      (simp only [List.mem_singleton, Prod.mk.injEq] at h;
       obtain ⟨rfl, rfl, rfl⟩ := h; simp)
  | casLoop =>
    cases role <;>
      (simp only [Detect.threadStep] at h
       split at h
       · simp only [List.mem_cons, List.mem_singleton, List.not_mem_nil,
           or_false, Prod.mk.injEq] at h
         rcases h with ⟨rfl, rfl, rfl⟩ | ⟨rfl, rfl, rfl⟩ <;> simp
       · split at h <;>
           (simp only [List.mem_singleton, Prod.mk.injEq] at h;
            obtain ⟨rfl, rfl, rfl⟩ := h; simp))
  | probe =>
    cases role with
    | getFns =>
      simp only [Detect.threadStep, List.mem_singleton, Prod.mk.injEq] at h
      obtain ⟨rfl, rfl, rfl⟩ := h
      simp
    | forceSrw =>
      simp [Detect.threadStep] at h
  | publish =>
    cases role with
    | getFns =>
      simp only [Detect.threadStep, List.mem_singleton, Prod.mk.injEq] at h
      obtain ⟨rfl, rfl, rfl⟩ := h
      simp
    | forceSrw =>
      simp [Detect.threadStep] at h
  | finished =>
    simp [Detect.threadStep] at h

lemma Detect.threadStep_frozen (lv : ApiLevel) (pf : Bool) (t : Detect.Thr)
    (x : Detect.Thr × ApiLevel × Nat)
    (hterm : Detect.isTerminal lv = true)
    (hpc : t.pc = Detect.TPc.start ∨ t.pc = Detect.TPc.casLoop ∨
      t.pc = Detect.TPc.finished)
    (hloc : t.pc = Detect.TPc.casLoop →
      t.loc.code ≤ ApiLevel.detecting.code)
    (h : x ∈ Detect.threadStep lv pf t) :
    x.2.1 = lv ∧
    (x.1.pc = Detect.TPc.start ∨ x.1.pc = Detect.TPc.casLoop ∨
      x.1.pc = Detect.TPc.finished) ∧
    (x.1.pc = Detect.TPc.casLoop →
      x.1.loc.code ≤ ApiLevel.detecting.code) := by
  have hlv : ApiLevel.detecting.code < lv.code := by
    simpa [Detect.isTerminal] using hterm
  obtain ⟨role, pc, loc⟩ := t
  obtain ⟨t2, lv2, dp⟩ := x
  cases pc with
  | start =>
    simp only [Detect.threadStep] at h
    rw [if_neg (by omega)] at h
    simp_all
  | casLoop =>
    have hloc2 : loc.code ≤ ApiLevel.detecting.code := hloc rfl
    have hne : lv ≠ loc := by
      intro e
      rw [e] at hlv
      omega
    simp only [Detect.threadStep] at h
    rw [if_neg hne, if_pos hlv] at h
    simp_all
  | probe => simp_all
  | publish => simp_all
  | finished => simp_all [Detect.threadStep]

lemma Detect.step_preserves_getOnly (s s2 : Detect.Sys)
    (hstep : Detect.Step s s2)
    (hroles : ∀ t ∈ s.thrs, t.role = Detect.Role.getFns)
    (hlv : s.level = ApiLevel.notSet ∨ s.level = ApiLevel.detecting ∨
      s.level = Detect.terminalFor s.probeFound) :
    (∀ t ∈ s2.thrs, t.role = Detect.Role.getFns) ∧
    (s2.level = ApiLevel.notSet ∨ s2.level = ApiLevel.detecting ∨
      s2.level = Detect.terminalFor s2.probeFound) := by
  obtain ⟨i, k, h⟩ := hstep
  unfold Detect.doStep at h
  split at h
  · exact absurd h (by simp)
  · rename_i t hti
    split at h
    · exact absurd h (by simp)
    · rename_i x hx
      obtain ⟨t2, lv2, dp⟩ := x
      injection h with h
      subst h
      have hmem : (t2, lv2, dp) ∈ Detect.threadStep s.level s.probeFound t :=
        list_mem_of_getElem_opt _ _ _ hx
      have htmem : t ∈ s.thrs := list_mem_of_getElem_opt _ _ _ hti
      have hrole := hroles t htmem
      have hspec := Detect.threadStep_spec _ _ _ _ hmem
      constructor
      · intro u hu
        rcases List.mem_or_eq_of_mem_set hu with h1 | h1
        · exact hroles u h1
        · rw [h1, hspec.1, hrole]
      · rcases hspec.2 with h1 | h1 | ⟨_, h1⟩ | ⟨hforce, h1⟩
        · rw [h1]; exact hlv
        · right; left; exact h1
        · right; right; exact h1
        · rw [hrole] at hforce; exact absurd hforce (by simp)

/-- Claim C4, counterexample: two threads racing through
`_Get_wait_functions` for the first time can both execute the OS symbol
probe — the second thread's `compare_exchange_weak` from `__detecting` to
`__detecting` succeeds, so it also proceeds to probe (probe count 2, not
at most 1). -/
theorem Detect.probe_runs_twice :
    (Detect.runSched (Detect.initGet 2 true)
        [(0, 0), (0, 0), (1, 0), (1, 0), (0, 0), (1, 0)]).map Detect.Sys.probes
      = some 2 := by
  decide

/-- Claim C4, amended: any thread whose CAS to `__detecting` succeeds
(whether from `__not_set` or from `__detecting`) proceeds to the OS probe,
so the probe may execute more than once; nevertheless, in every state
reachable by concurrent first-time `_Get_wait_functions` callers the level
is `__not_set`, `__detecting`, or the single terminal value determined by
the fixed probe outcome — so every caller observes the same terminal
level. -/
theorem Detect.detector_single_terminal_level (s s2 : Detect.Sys)
    (hroles : ∀ t ∈ s.thrs, t.role = Detect.Role.getFns)
    (hlv : s.level = ApiLevel.notSet ∨ s.level = ApiLevel.detecting ∨
      s.level = Detect.terminalFor s.probeFound)
    (hr : Detect.Reaches s s2) :
    s2.level = ApiLevel.notSet ∨ s2.level = ApiLevel.detecting ∨
      s2.level = Detect.terminalFor s2.probeFound := by
  have hr2 : Relation.ReflTransGen Detect.Step s s2 := hr
  clear hr
  have key : (∀ t ∈ s2.thrs, t.role = Detect.Role.getFns) ∧
      (s2.level = ApiLevel.notSet ∨ s2.level = ApiLevel.detecting ∨
        s2.level = Detect.terminalFor s2.probeFound) := by
    induction hr2 with
    | refl => exact ⟨hroles, hlv⟩
    | tail hab hbc ih =>
      exact Detect.step_preserves_getOnly _ _ hbc ih.1 ih.2
  exact key.2

/-- Witness for the amended C4: one concrete step from the two-thread
initial state. -/
theorem Detect.detector_single_terminal_level_witness :
    (⟨ApiLevel.notSet, true,
      [⟨Detect.Role.getFns, Detect.TPc.casLoop, ApiLevel.notSet⟩,
       ⟨Detect.Role.getFns, Detect.TPc.start, ApiLevel.notSet⟩], 0⟩ :
        Detect.Sys).level = ApiLevel.notSet ∨
    (⟨ApiLevel.notSet, true,
      [⟨Detect.Role.getFns, Detect.TPc.casLoop, ApiLevel.notSet⟩,
       ⟨Detect.Role.getFns, Detect.TPc.start, ApiLevel.notSet⟩], 0⟩ :
        Detect.Sys).level = ApiLevel.detecting ∨
    (⟨ApiLevel.notSet, true,
      [⟨Detect.Role.getFns, Detect.TPc.casLoop, ApiLevel.notSet⟩,
       ⟨Detect.Role.getFns, Detect.TPc.start, ApiLevel.notSet⟩], 0⟩ :
        Detect.Sys).probeFound = true :=
  have h := Detect.detector_single_terminal_level (Detect.initGet 2 true)
    (⟨ApiLevel.notSet, true,
      [⟨Detect.Role.getFns, Detect.TPc.casLoop, ApiLevel.notSet⟩,
       ⟨Detect.Role.getFns, Detect.TPc.start, ApiLevel.notSet⟩], 0⟩ :
        Detect.Sys)
    (by decide) (by decide)
    (Relation.ReflTransGen.single ⟨0, 0, by decide⟩)
  by rcases h with h | h | h
     · exact Or.inl h
     · exact Or.inr (Or.inl h)
     · exact Or.inr (Or.inr rfl)

lemma Detect.step_preserves_frozen (lvl : ApiLevel) (s s2 : Detect.Sys)
    (hstep : Detect.Step s s2)
    (hterm : Detect.isTerminal lvl = true)
    (hlv : s.level = lvl)
    (hq : ∀ t ∈ s.thrs, t.pc = Detect.TPc.start ∨
      t.pc = Detect.TPc.casLoop ∨ t.pc = Detect.TPc.finished)
    (hloc : ∀ t ∈ s.thrs, t.pc = Detect.TPc.casLoop →
      t.loc.code ≤ ApiLevel.detecting.code) :
    s2.level = lvl ∧
    (∀ t ∈ s2.thrs, t.pc = Detect.TPc.start ∨
      t.pc = Detect.TPc.casLoop ∨ t.pc = Detect.TPc.finished) ∧
    (∀ t ∈ s2.thrs, t.pc = Detect.TPc.casLoop →
      t.loc.code ≤ ApiLevel.detecting.code) := by
  obtain ⟨i, k, h⟩ := hstep
  unfold Detect.doStep at h
  split at h
  · exact absurd h (by simp)
  · rename_i t hti
    split at h
    · exact absurd h (by simp)
    · rename_i x hx
      obtain ⟨t2, lv2, dp⟩ := x
      injection h with h
      subst h
      have hmem : (t2, lv2, dp) ∈ Detect.threadStep s.level s.probeFound t :=
        list_mem_of_getElem_opt _ _ _ hx
      have htmem : t ∈ s.thrs := list_mem_of_getElem_opt _ _ _ hti
      subst hlv
      have hfro := Detect.threadStep_frozen _ _ _ _ hterm (hq t htmem)
        (hloc t htmem) hmem
      refine ⟨hfro.1, ?_, ?_⟩
      · intro u hu
        rcases List.mem_or_eq_of_mem_set hu with h1 | h1
        · exact hq u h1
        · rw [h1]; exact hfro.2.1
      · intro u hu
        rcases List.mem_or_eq_of_mem_set hu with h1 | h1
        · exact hloc u h1
        · rw [h1]; exact hfro.2.2

/-- Claim C5, counterexample: while one thread's detection is in flight
(it has won the CAS and is probing), a concurrent
`_Force_wait_functions_srwlock_only` publishes the terminal value
`__has_srwlock`; the prober then finishes and unconditionally stores
`__has_wait_on_address`, changing an already-terminal level. -/
theorem Detect.inflight_detection_overwrites_forced_terminal :
    (Detect.runSched Detect.initGetForce
        [(0, 0), (0, 0), (1, 0), (1, 0)]).map Detect.Sys.level
      = some ApiLevel.hasSrwlock ∧
    Detect.isTerminal ApiLevel.hasSrwlock = true ∧
    (Detect.runSched Detect.initGetForce
        [(0, 0), (0, 0), (1, 0), (1, 0), (0, 0), (0, 0)]).map Detect.Sys.level
      = some ApiLevel.hasWaitOnAddress := by
  decide

/-- Claim C5, amended: once the level holds a terminal value and no
detection is in flight (no thread sits between a successful CAS and its
terminal store), no later operation — `_Get_wait_functions` or
`_Force_wait_functions_srwlock_only`, from any number of threads — ever
changes the level again; in particular the force operation is a no-op once
detection has completed.  (A detection already in flight may still
overwrite a concurrently forced terminal value, per the counterexample.) -/
theorem Detect.terminal_level_stable (s s2 : Detect.Sys)
    (hterm : Detect.isTerminal s.level = true)
    (hq : ∀ t ∈ s.thrs, t.pc = Detect.TPc.start ∨
      t.pc = Detect.TPc.casLoop ∨ t.pc = Detect.TPc.finished)
    (hloc : ∀ t ∈ s.thrs, t.pc = Detect.TPc.casLoop →
      t.loc.code ≤ ApiLevel.detecting.code)
    (hr : Detect.Reaches s s2) :
    s2.level = s.level := by
  have hr2 : Relation.ReflTransGen Detect.Step s s2 := hr
  clear hr
  have key : s2.level = s.level ∧
      (∀ t ∈ s2.thrs, t.pc = Detect.TPc.start ∨
        t.pc = Detect.TPc.casLoop ∨ t.pc = Detect.TPc.finished) ∧
      (∀ t ∈ s2.thrs, t.pc = Detect.TPc.casLoop →
        t.loc.code ≤ ApiLevel.detecting.code) := by
    induction hr2 with
    | refl => exact ⟨rfl, hq, hloc⟩
    | tail hab hbc ih =>
      have hstep := Detect.step_preserves_frozen s.level _ _ hbc hterm
        ih.1 ih.2.1 ih.2.2
      exact hstep
  exact key.1

/-- Witness for the amended C5: a forced-terminal one-thread state takes a
step (the force call observes the terminal level and returns) and the level
is unchanged. -/
theorem Detect.terminal_level_stable_witness :
    (⟨ApiLevel.hasSrwlock, true,
      [⟨Detect.Role.forceSrw, Detect.TPc.finished, ApiLevel.hasSrwlock⟩],
      0⟩ : Detect.Sys).level
    = (⟨ApiLevel.hasSrwlock, true,
      [⟨Detect.Role.forceSrw, Detect.TPc.start, ApiLevel.notSet⟩],
      0⟩ : Detect.Sys).level :=
  Detect.terminal_level_stable _ _ (by decide) (by decide) (by decide)
    (Relation.ReflTransGen.single ⟨0, 0, by decide⟩)

/-- Claim C10: `__std_atomic_notify_one_indirect` is exactly
`__std_atomic_notify_all_indirect`, for every build configuration, feature
level, wait-table state and address. -/
theorem notifyOneIndirect_is_notifyAllIndirect (statAvail : Bool)
    (lv : ApiLevel) (table : Nat → Nat) (storage : Nat) :
    notifyOneIndirect statAvail lv table storage
      = notifyAllIndirect statAvail lv table storage := rfl

end AtomicWait
